import Mathlib

/-!
Shallow embedding of the shopify-inventory-sync repository's consistency core.

The persistent state of the program is two JSON files: a list of product
groups (`product_groups.json`) and a list of reservations
(`reservations.json`).  Every db.js operation reads the whole list, edits it
and writes it back; we model each operation as a pure function on Lean lists.
Timestamps are modelled as integers (milliseconds); `new Date(x) > now`
becomes `now < x`.  External collaborators (the Shopify catalog) are modelled
as explicit function parameters: `catalog : String → Int` for the "read
available quantity" operation (the source returns 0 on error or missing
data, so a total function is faithful) and `env : String → WriteOutcome` for
the per-item outcome of `updateShopifyInventory` (success, skip because no
location was found, or a thrown error).
-/

namespace ShopifySync

/-- Status of a reservation record (`status` field in reservations.json). -/
inductive ResStatus where
  | active
  | consumed
  | released
  | expired
deriving DecidableEq, Repr

/-- A product group record as stored in product_groups.json
(productService.js builds `{id, title, variantIds, inventoryItemIds,
sharedInventoryCount}`). -/
structure Group where
  id : String
  title : String
  variantIds : List String
  inventoryItemIds : List String
  sharedInventoryCount : Int
deriving DecidableEq, Repr

/-- A reservation record as stored in reservations.json.  `consumedAt` is
absent until `consumeReservationsForGroup` sets it; `releasedAt` is in the
spec's data model (the source never sets it). -/
structure Reservation where
  reservationId : String
  productGroupId : String
  variantId : String
  reservedQuantity : Int
  reservedAt : Int
  expiresAt : Int
  status : ResStatus
  consumedAt : Option Int
  releasedAt : Option Int
deriving DecidableEq, Repr

/-! ### db.js: product group functions -/

/-- db.js `saveProductGroup`: replace the first group with the same id
(`findIndex`), or push at the end. -/
def saveProductGroup : List Group → Group → List Group
  | [], g => [g]
  | h :: t, g => if h.id = g.id then g :: t else h :: saveProductGroup t g

/-- db.js `findProductGroupByVariantId`: first group whose `variantIds`
contains the variant. -/
def findProductGroupByVariantId (groups : List Group) (variantId : String) :
    Option Group :=
  groups.find? (fun g => g.variantIds.contains variantId)

/-- db.js `findProductGroupByInventoryItemId`: first group whose
`inventoryItemIds` contains the inventory item. -/
def findProductGroupByInventoryItemId (groups : List Group)
    (inventoryItemId : String) : Option Group :=
  groups.find? (fun g => g.inventoryItemIds.contains inventoryItemId)

/-- db.js `updateProductGroupInventory`: set `sharedInventoryCount` of the
first group with the given id and write the file; if no group matches, the
source returns `null` and writes nothing, modelled as `none` (the registry
is unchanged). -/
def updateProductGroupInventory : List Group → String → Int → Option (List Group)
  | [], _, _ => none
  | g :: gs, productGroupId, n =>
    if g.id = productGroupId then
      some ({ g with sharedInventoryCount := n } :: gs)
    else
      (updateProductGroupInventory gs productGroupId n).map (g :: ·)

/-- db.js `getProductGroup`: first group with the given id. -/
def getProductGroup (groups : List Group) (productId : String) : Option Group :=
  groups.find? (fun g => g.id == productId)

/-- db.js `removeProductGroup`: filter the group out; the file is rewritten
(and `true` returned) only when the length changed. -/
def removeProductGroup (groups : List Group) (productId : String) :
    List Group × Bool :=
  let updatedGroups := groups.filter (fun g => g.id != productId)
  if groups.length ≠ updatedGroups.length then (updatedGroups, true)
  else (groups, false)

/-! ### db.js: reservation functions -/

/-- Eligibility test used by db.js for both `getActiveReservationsForGroup`
and `consumeReservationsForGroup`: same group, status `active`, and
`new Date(r.expiresAt) > now` (strict). -/
def eligiblePred (productGroupId : String) (now : Int) (r : Reservation) : Bool :=
  r.productGroupId == productGroupId && r.status == ResStatus.active &&
    decide (now < r.expiresAt)

/-- db.js `getActiveReservationsForGroup`: filter only — the source does not
sort the result. -/
def getActiveReservationsForGroup (reservations : List Reservation)
    (productGroupId : String) (now : Int) : List Reservation :=
  reservations.filter (eligiblePred productGroupId now)

/-- db.js `createReservation`: append the record (the generated
`reservationId` is taken as part of the supplied record, since it comes from
the clock and a random source). -/
def createReservation (reservations : List Reservation) (r : Reservation) :
    List Reservation × Reservation :=
  (reservations ++ [r], r)

/-- The mutation `consumeReservationsForGroup` applies to a reservation it
consumes: `status = 'consumed'`, `consumedAt = new Date()`. -/
def markRes (now : Int) (r : Reservation) : Reservation :=
  { r with status := ResStatus.consumed, consumedAt := some now }

/-- The `findIndex`-then-mutate step of db.js `consumeReservationsForGroup`:
find the first reservation with the given id, mark it consumed, and return
its `reservedQuantity`; `none` when the id is absent (`findIndex === -1`). -/
def markConsumed (now : Int) : List Reservation → String → Option (List Reservation × Int)
  | [], _ => none
  | r :: rest, reservationId =>
    if r.reservationId = reservationId then
      some (markRes now r :: rest, r.reservedQuantity)
    else
      (markConsumed now rest reservationId).map (fun p => (r :: p.1, p.2))

/-- The `for` loop of db.js `consumeReservationsForGroup`: walk the eligible
list while `actualConsumedCount < consumedQuantity`; both branches of the
body consume the found reservation in full (the source's `else` branch logs
a warning and consumes it anyway). -/
def consumeLoop (now consumedQuantity : Int) :
    List Reservation → List Reservation → Int → List Reservation × Int
  | all, [], acc => (all, acc)
  | all, e :: es, acc =>
    if acc < consumedQuantity then
      match markConsumed now all e.reservationId with
      | some (all2, q) => consumeLoop now consumedQuantity all2 es (acc + q)
      | none => consumeLoop now consumedQuantity all es acc
    else (all, acc)

/-- db.js `consumeReservationsForGroup`: filter the eligible reservations,
sort them ascending by `reservedAt` (the source uses the JS stable sort with
comparator `reservedAt - reservedAt`; the stable sort of a list under a
total preorder is unique, so insertion sort by `≤` is the same function),
then run the consume loop over the whole ledger; returns the new ledger and
`actualConsumedCount`. -/
def consumeReservationsForGroup (reservations : List Reservation)
    (productGroupId : String) (consumedQuantity : Int) (now : Int) :
    List Reservation × Int :=
  let eligible := (reservations.filter (eligiblePred productGroupId now)).insertionSort
      (fun a b => a.reservedAt ≤ b.reservedAt)
  consumeLoop now consumedQuantity reservations eligible 0

/-! ### inventoryService.js -/

/-- Outcome of one `updateShopifyInventory(inventoryItemId, level)` call:
the write succeeds, is skipped because no location was found (the source
logs and returns), or throws (request error or `userErrors`). -/
inductive WriteOutcome where
  | ok
  | skippedNoLocation
  | failed
deriving DecidableEq, Repr

/-- inventoryService.js `setAllVariantsInventory`: sequential loop of
`updateShopifyInventory` over `productGroup.inventoryItemIds`; a thrown
write aborts the loop (the `catch` rethrows).  Returns the list of
successful external set-inventory writes `(inventoryItemId, level)` and
`true` when no write threw. -/
def setAllVariantsInventory (env : String → WriteOutcome)
    (inventoryItemIds : List String) (level : Int) :
    List (String × Int) × Bool :=
  match inventoryItemIds with
  | [] => ([], true)
  | i :: rest =>
    match env i with
    | .failed => ([], false)
    | .skippedNoLocation => setAllVariantsInventory env rest level
    | .ok =>
      let p := setAllVariantsInventory env rest level
      ((i, level) :: p.1, p.2)

/-- inventoryService.js `syncInventoryForItem`: resolve the group by
inventory item (no-op when absent), store `newInventoryLevel` in the group
(unclamped), then fan out `if newInventoryLevel <= 0 then 0 else
newInventoryLevel` to every member item.  Returns the new registry, the
successful external writes, and whether the call completed without a thrown
fan-out error (the registry write precedes the fan-out, so it survives a
fan-out failure). -/
def syncInventoryForItem (env : String → WriteOutcome) (groups : List Group)
    (inventoryItemId : String) (newInventoryLevel : Int) :
    List Group × List (String × Int) × Bool :=
  match findProductGroupByInventoryItemId groups inventoryItemId with
  | none => (groups, [], true)
  | some g =>
    let groups2 := (updateProductGroupInventory groups g.id newInventoryLevel).getD groups
    let fanLevel := if newInventoryLevel ≤ 0 then (0 : Int) else newInventoryLevel
    let p := setAllVariantsInventory env g.inventoryItemIds fanLevel
    (groups2, p.1, p.2)

/-- The full persistent state: the two JSON files. -/
structure AppState where
  groups : List Group
  reservations : List Reservation
deriving DecidableEq, Repr

/-- Result of inventoryService.js `handleCartAddition`, one constructor per
returned `{success, message}` value (the `catch` produces
`processingError`). -/
inductive CartResult where
  | success
  | productNotFound
  | noInventoryItem
  | outOfStock
  | processingError
deriving DecidableEq, Repr

/-- inventoryService.js `handleCartAddition`: resolve the group by variant;
take the group's FIRST inventory item (`inventoryItemIds[0]`, rejected when
missing or the empty string, both falsy); fetch its live available quantity
from the external catalog (`getInventoryLevel`, which returns 0 on error);
reject when that fetched value is `<= 0`; otherwise store `fetched - 1` via
`syncInventoryForItem` and fan it out.  The reservation ledger is never
read or written.  Returns the new state, the result, and the successful
external writes. -/
def handleCartAddition (env : String → WriteOutcome) (catalog : String → Int)
    (st : AppState) (variantId : String) :
    AppState × CartResult × List (String × Int) :=
  match findProductGroupByVariantId st.groups variantId with
  | none => (st, CartResult.productNotFound, [])
  | some g =>
    match g.inventoryItemIds.head? with
    | none => (st, CartResult.noInventoryItem, [])
    | some inventoryItemId =>
      if inventoryItemId = "" then (st, CartResult.noInventoryItem, [])
      else
        let currentInventory := catalog inventoryItemId
        if currentInventory ≤ 0 then (st, CartResult.outOfStock, [])
        else
          let p := syncInventoryForItem env st.groups inventoryItemId (currentInventory - 1)
          ({ st with groups := p.1 },
           if p.2.2 then CartResult.success else CartResult.processingError, p.2.1)

/-- inventoryService.js `handleOrderLineItem`: resolve the group by variant
(no-op when absent); `newInventory = Math.max(0, sharedInventoryCount - 1)`;
store and fan out via `syncInventoryForItem` keyed by `inventoryItemIds[0]`
(JS `String(undefined)` is the literal string "undefined" when the member
list is empty). -/
def handleOrderLineItem (env : String → WriteOutcome) (groups : List Group)
    (variantId : String) : List Group × List (String × Int) × Bool :=
  match findProductGroupByVariantId groups variantId with
  | none => (groups, [], true)
  | some g =>
    let newInventory := max 0 (g.sharedInventoryCount - 1)
    syncInventoryForItem env groups (g.inventoryItemIds.headD "undefined") newInventory

/-! ### productService.js -/

/-- One entry of a product's `variants` array as consumed by
productService.js (`variant.id`, `variant.inventory_item_id`). -/
structure VariantInfo where
  id : String
  inventory_item_id : String
deriving DecidableEq, Repr

/-- productService.js `updateProductGroup`: with fewer than two variants the
group is removed (`db.removeProductGroup`); otherwise the membership and
title are rebuilt and the group saved, keeping the existing group's
`sharedInventoryCount` when it was registered and using the externally
fetched level (`fetchedLevel`) only when it was not. -/
def updateProductGroup (groups : List Group) (productId : String)
    (title : String) (variants : List VariantInfo) (fetchedLevel : Int) :
    List Group :=
  if variants.length ≤ 1 then (removeProductGroup groups productId).1
  else
    let variantIds := variants.map VariantInfo.id
    let inventoryItemIds := variants.map VariantInfo.inventory_item_id
    let level :=
      match getProductGroup groups productId with
      | some existing => existing.sharedInventoryCount
      | none => fetchedLevel
    saveProductGroup groups
      { id := productId, title := title, variantIds := variantIds,
        inventoryItemIds := inventoryItemIds, sharedInventoryCount := level }

/-! ### Spec-modelled ledger transition -/

/-- Errors of the spec's Reservation Ledger `transition` operation. -/
inductive LedgerError where
  | notFound
  | invalidTransition
deriving DecidableEq, Repr

/-- Modelled from the spec: the Reservation Ledger operation
`transition(reservationId, newStatus, at)` of section 4.2 has no
implementation in the source (the only status mutation in src is the
hard-coded active-to-consumed step inside `consumeReservationsForGroup`).
Per the spec it fails with `InvalidTransitionError` unless the current
status is `active`, and otherwise sets the terminal status and its
timestamp. -/
def transition (reservations : List Reservation) (reservationId : String)
    (newStatus : ResStatus) (t : Int) : Except LedgerError (List Reservation) :=
  match reservations with
  | [] => Except.error LedgerError.notFound
  | r :: rest =>
    if r.reservationId = reservationId then
      if r.status = ResStatus.active then
        Except.ok
          ({ r with
              status := newStatus,
              consumedAt := if newStatus = ResStatus.consumed then some t else r.consumedAt,
              releasedAt := if newStatus = ResStatus.released then some t else r.releasedAt } :: rest)
      else Except.error LedgerError.invalidTransition
    else
      match transition rest reservationId newStatus t with
      | Except.ok rest2 => Except.ok (r :: rest2)
      | Except.error e => Except.error e

/-- Pointwise relation between the ledger before and after a consume sweep:
a record keeps its id and is either untouched or was `active` and is now the
consumed version.  In particular a record already in a terminal state is
never changed. -/
def statusPreservedOrConsumed (now : Int) (r r2 : Reservation) : Prop :=
  r2.reservationId = r.reservationId ∧
    (r2 = r ∨ (r.status = ResStatus.active ∧ r2 = markRes now r))

/-- Replay a list of external set-inventory writes onto a catalog read
function: after the fan-out, reading an item returns the last level written
to it. -/
def applyCalls (catalog : String → Int) : List (String × Int) → String → Int
  | [] => catalog
  | c :: rest => applyCalls (fun j => if j = c.1 then c.2 else catalog j) rest

/-! ### Concrete fixtures used by the closed theorems -/

/-- Environment in which every external set-inventory write succeeds. -/
def envAllOk : String → WriteOutcome := fun _ => WriteOutcome.ok

/-- Environment in which the write for item i1 throws and every other write
succeeds. -/
def envFail1 : String → WriteOutcome :=
  fun i => if i = "i1" then WriteOutcome.failed else WriteOutcome.ok

/-- A two-member group with shared count 5. -/
def gC1 : Group :=
  { id := "p1", title := "Art", variantIds := ["v1", "v2"],
    inventoryItemIds := ["i1", "i2"], sharedInventoryCount := 5 }

/-- State for the cart-add ledger check: one group, empty reservation
ledger. -/
def stC1 : AppState := { groups := [gC1], reservations := [] }

/-- Catalog in which item i1 has 5 available. -/
def catC1 : String → Int := fun i => if i = "i1" then 5 else 0

/-- A two-member group whose stored shared count is 0. -/
def g0 : Group :=
  { id := "p0", title := "Art0", variantIds := ["v1", "v2"],
    inventoryItemIds := ["i1", "i2"], sharedInventoryCount := 0 }

/-- State holding only `g0`. -/
def st0 : AppState := { groups := [g0], reservations := [] }

/-- Catalog in which item i1 has 2 available. -/
def cat2 : String → Int := fun i => if i = "i1" then 2 else 0

/-- Catalog in which every item has 0 available. -/
def catZeroW : String → Int := fun _ => 0

/-- A three-member group with shared count 1 (the oversell scenario). -/
def gOne : Group :=
  { id := "pOne", title := "One", variantIds := ["v1", "v2", "v3"],
    inventoryItemIds := ["i1", "i2", "i3"], sharedInventoryCount := 1 }

/-- State holding only `gOne`. -/
def stOne : AppState := { groups := [gOne], reservations := [] }

/-- Catalog in which item i1 has exactly 1 available, agreeing with
`gOne.sharedInventoryCount`. -/
def catOne : String → Int := fun i => if i = "i1" then 1 else 0

/-- A three-member group for the fan-out scenario. -/
def g3 : Group :=
  { id := "p3", title := "Three", variantIds := ["v1", "v2", "v3"],
    inventoryItemIds := ["i1", "i2", "i3"], sharedInventoryCount := 0 }

/-- Registry fixture group a. -/
def gA : Group :=
  { id := "a", title := "A", variantIds := ["va1", "va2"],
    inventoryItemIds := ["ia1", "ia2"], sharedInventoryCount := 3 }

/-- Registry fixture group b. -/
def gB : Group :=
  { id := "b", title := "B", variantIds := ["vb1", "vb2"],
    inventoryItemIds := ["ib1", "ib2"], sharedInventoryCount := 1 }

/-- Group fixture for the upsert theorems. -/
def gW : Group :=
  { id := "p", title := "T", variantIds := ["v1", "v2"],
    inventoryItemIds := ["j1", "j2"], sharedInventoryCount := 6 }

/-- Variant-info fixture. -/
def w1 : VariantInfo := { id := "x1", inventory_item_id := "y1" }

/-- Variant-info fixture. -/
def w2 : VariantInfo := { id := "x2", inventory_item_id := "y2" }

/-- A group with shared count already 0, for the order-confirmation
theorem. -/
def gZ : Group :=
  { id := "z", title := "Z", variantIds := ["vz1", "vz2"],
    inventoryItemIds := ["iz1", "iz2"], sharedInventoryCount := 0 }

/-- Older active reservation (reservedAt 0). -/
def r1ex : Reservation :=
  { reservationId := "r1", productGroupId := "G", variantId := "v1",
    reservedQuantity := 1, reservedAt := 0, expiresAt := 100,
    status := ResStatus.active, consumedAt := none, releasedAt := none }

/-- Newer active reservation (reservedAt 1), stored before `r1ex` in the
ledger fixture to exercise the ordering. -/
def r2ex : Reservation :=
  { reservationId := "r2", productGroupId := "G", variantId := "v2",
    reservedQuantity := 1, reservedAt := 1, expiresAt := 100,
    status := ResStatus.active, consumedAt := none, releasedAt := none }

/-- The reservation `r1ex` after a released transition at time 5. -/
def r1rel : Reservation :=
  { r1ex with status := ResStatus.released, releasedAt := some 5 }

/-! ### Helper lemmas -/

theorem find?_some_split {α : Type} {p : α → Bool} {l : List α} {x : α}
    (h : l.find? p = some x) :
    p x = true ∧ ∃ pre post, l = pre ++ x :: post ∧ ∀ a ∈ pre, p a = false := by
  obtain ⟨hb, pre, post, hl, hpre⟩ := List.find?_eq_some.mp h
  exact ⟨hb, pre, post, hl, fun a ha => by simpa using hpre a ha⟩

theorem find?_first {α : Type} {p : α → Bool} (pre : List α) (x : α)
    (post : List α) (hpre : ∀ a ∈ pre, p a = false) (hx : p x = true) :
    (pre ++ x :: post).find? p = some x :=
  List.find?_eq_some.mpr ⟨hx, pre, post, rfl, fun a ha => by simpa using hpre a ha⟩

theorem nodup_no_earlier_id {pre : List Group} {g : Group} {post : List Group}
    (h : ((pre ++ g :: post).map Group.id).Nodup) :
    ∀ x ∈ pre, x.id ≠ g.id := by
  intro x hx heq
  rw [List.map_append] at h
  have hdisj := List.disjoint_of_nodup_append h
  exact hdisj (List.mem_map_of_mem Group.id hx) (by rw [heq]; simp)

theorem updateProductGroupInventory_eq_none_iff (groups : List Group)
    (productGroupId : String) (n : Int) :
    updateProductGroupInventory groups productGroupId n = none ↔
      ∀ g ∈ groups, g.id ≠ productGroupId := by
  induction groups with
  | nil => simp [updateProductGroupInventory]
  | cons g gs ih =>
    by_cases h : g.id = productGroupId
    · simp [updateProductGroupInventory, h]
    · simp [updateProductGroupInventory, h, Option.map_eq_none', ih]

theorem updateProductGroupInventory_first (pre : List Group) (g : Group)
    (post : List Group) (productGroupId : String) (n : Int)
    (hpre : ∀ x ∈ pre, x.id ≠ productGroupId) (hg : g.id = productGroupId) :
    updateProductGroupInventory (pre ++ g :: post) productGroupId n =
      some (pre ++ { g with sharedInventoryCount := n } :: post) := by
  induction pre with
  | nil => simp [updateProductGroupInventory, hg]
  | cons a t ih =>
    have ha : a.id ≠ productGroupId := hpre a (by simp)
    simp [updateProductGroupInventory, ha,
      ih (fun x hx => hpre x (by simp [hx]))]

theorem updateProductGroupInventory_some_split (groups : List Group)
    (productGroupId : String) (n : Int) (groups2 : List Group)
    (h : updateProductGroupInventory groups productGroupId n = some groups2) :
    ∃ pre g post, groups = pre ++ g :: post ∧
      (∀ x ∈ pre, x.id ≠ productGroupId) ∧ g.id = productGroupId ∧
      groups2 = pre ++ { g with sharedInventoryCount := n } :: post := by
  induction groups generalizing groups2 with
  | nil => simp [updateProductGroupInventory] at h
  | cons a t ih =>
    by_cases ha : a.id = productGroupId
    · rw [updateProductGroupInventory, if_pos ha] at h
      cases h
      exact ⟨[], a, t, rfl, by simp, ha, rfl⟩
    · rw [updateProductGroupInventory, if_neg ha] at h
      obtain ⟨l, hrec, hcons⟩ := Option.map_eq_some'.mp h
      obtain ⟨pre, g, post, h1, h2, h3, h4⟩ := ih l hrec
      refine ⟨a :: pre, g, post, by rw [h1]; rfl, ?_, h3, by rw [← hcons, h4]; rfl⟩
      intro x hx
      rcases List.mem_cons.mp hx with rfl | hx
      · exact ha
      · exact h2 x hx

theorem saveProductGroup_first (pre : List Group) (g : Group)
    (post : List Group) (ng : Group) (hpre : ∀ x ∈ pre, x.id ≠ ng.id)
    (hg : g.id = ng.id) :
    saveProductGroup (pre ++ g :: post) ng = pre ++ ng :: post := by
  induction pre with
  | nil => simp [saveProductGroup, hg]
  | cons a t ih =>
    simp [saveProductGroup, hpre a (by simp),
      ih (fun x hx => hpre x (by simp [hx]))]

theorem filter_of_length_eq {α : Type} {p : α → Bool} {l : List α}
    (h : (l.filter p).length = l.length) : l.filter p = l := by
  induction l with
  | nil => rfl
  | cons a t ih =>
    by_cases hpa : p a
    · rw [List.filter_cons_of_pos hpa] at h ⊢
      rw [List.length_cons, List.length_cons] at h
      rw [ih (by omega)]
    · exfalso
      have hle := List.length_filter_le p t
      rw [List.filter_cons_of_neg (by simpa using hpa), List.length_cons] at h
      omega

theorem removeProductGroup_fst (groups : List Group) (productId : String) :
    (removeProductGroup groups productId).1
      = groups.filter (fun g => g.id != productId) := by
  rw [removeProductGroup]
  by_cases h : groups.length = (groups.filter (fun g => g.id != productId)).length
  · rw [if_neg (by omega)]
    exact (filter_of_length_eq h.symm).symm
  · rw [if_pos (by omega)]

theorem ite_nonpos_eq_max (n : Int) : (if n ≤ 0 then (0 : Int) else n) = max 0 n := by
  rcases le_or_lt n 0 with h | h
  · simp [h, max_eq_left h]
  · simp [not_le.mpr h, max_eq_right h.le]

theorem setAllVariantsInventory_all_ok (env : String → WriteOutcome)
    (items : List String) (level : Int)
    (h : ∀ i ∈ items, env i = WriteOutcome.ok) :
    setAllVariantsInventory env items level
      = (items.map (fun i => (i, level)), true) := by
  induction items with
  | nil => rfl
  | cons i rest ih =>
    rw [setAllVariantsInventory, h i (by simp)]
    simp [ih (fun j hj => h j (by simp [hj]))]

theorem markConsumed_quantities (now : Int) (all : List Reservation)
    (rid : String) (all2 : List Reservation) (q : Int)
    (h : markConsumed now all rid = some (all2, q)) :
    all2.map Reservation.reservedQuantity = all.map Reservation.reservedQuantity ∧
      q ∈ all.map Reservation.reservedQuantity := by
  induction all generalizing all2 with
  | nil => simp [markConsumed] at h
  | cons r rest ih =>
    by_cases hr : r.reservationId = rid
    · rw [markConsumed, if_pos hr] at h
      cases h
      exact ⟨by simp [markRes], by simp⟩
    · rw [markConsumed, if_neg hr] at h
      obtain ⟨⟨pl, pq⟩, hrec, hcons⟩ := Option.map_eq_some'.mp h
      injection hcons with h1 h2
      subst h1
      subst h2
      obtain ⟨h1, h2⟩ := ih pl hrec
      exact ⟨by simp [h1], by simp [h2]⟩

theorem consumeLoop_bound (now qty : Int) (es : List Reservation) :
    ∀ (all : List Reservation) (acc : Int),
      (consumeLoop now qty all es acc).2 = acc ∨
      ∃ q ∈ all.map Reservation.reservedQuantity,
        (consumeLoop now qty all es acc).2 < qty + q := by
  induction es with
  | nil => intro all acc; left; rfl
  | cons e es ih =>
    intro all acc
    rw [consumeLoop]
    by_cases hacc : acc < qty
    · rw [if_pos hacc]
      cases hmk : markConsumed now all e.reservationId with
      | none => exact ih all acc
      | some p =>
        obtain ⟨hq_eq, hq_mem⟩ :=
          markConsumed_quantities now all e.reservationId p.1 p.2 (by rw [hmk])
        rcases ih p.1 (acc + p.2) with h | ⟨q, hqmem, hlt⟩
        · right
          exact ⟨p.2, hq_mem, by rw [h]; omega⟩
        · right
          rw [hq_eq] at hqmem
          exact ⟨q, hqmem, hlt⟩
    · rw [if_neg hacc]
      left
      rfl

theorem markConsumed_forall2 (now : Int) (rs : List Reservation) :
    (rs.map Reservation.reservationId).Nodup →
    ∀ (all : List Reservation),
      List.Forall₂ (statusPreservedOrConsumed now) rs all →
    ∀ (e : Reservation), e ∈ rs → e.status = ResStatus.active →
    ∀ (all2 : List Reservation) (q : Int),
      markConsumed now all e.reservationId = some (all2, q) →
      List.Forall₂ (statusPreservedOrConsumed now) rs all2 := by
  induction rs with
  | nil =>
    intro _ all hf e he
    simp at he
  | cons a l₁ ih =>
    intro hnodup all hf e he hact all2 q hmk
    cases hf with
    | cons hR hTail =>
      rename_i b l₂
      by_cases hb : b.reservationId = e.reservationId
      · rw [markConsumed, if_pos hb] at hmk
        cases hmk
        have hea : e = a := by
          rcases List.mem_cons.mp he with rfl | hmem
          · rfl
          · exfalso
            have hba : b.reservationId = a.reservationId := hR.1
            have : e.reservationId ∈ l₁.map Reservation.reservationId :=
              List.mem_map_of_mem Reservation.reservationId hmem
            rw [← hb, hba] at this
            exact (List.nodup_cons.mp (by simpa using hnodup)).1 this
        subst hea
        refine List.Forall₂.cons ⟨?_, Or.inr ⟨hact, ?_⟩⟩ hTail
        · have : (markRes now b).reservationId = b.reservationId := rfl
          rw [this, hR.1]
        · rcases hR.2 with rfl | ⟨_, rfl⟩
          · rfl
          · rfl
      · rw [markConsumed, if_neg hb] at hmk
        obtain ⟨p, hrec, hcons⟩ := Option.map_eq_some'.mp hmk
        have hp : (b :: p.1, p.2) = (all2, q) := hcons
        cases hp
        have hmem : e ∈ l₁ := by
          rcases List.mem_cons.mp he with rfl | hmem
          · exact absurd hR.1 hb
          · exact hmem
        exact List.Forall₂.cons hR
          (ih (List.nodup_cons.mp (by simpa using hnodup)).2 l₂ hTail e hmem hact p.1 p.2
            (by rw [hrec]))

theorem consumeLoop_forall2 (now qty : Int) (rs : List Reservation)
    (hnodup : (rs.map Reservation.reservationId).Nodup)
    (es : List Reservation) :
    ∀ (all : List Reservation) (acc : Int),
      List.Forall₂ (statusPreservedOrConsumed now) rs all →
      (∀ e ∈ es, e ∈ rs ∧ e.status = ResStatus.active) →
      List.Forall₂ (statusPreservedOrConsumed now) rs (consumeLoop now qty all es acc).1 := by
  induction es with
  | nil =>
    intro all acc hf _
    exact hf
  | cons e es ih =>
    intro all acc hf hes
    rw [consumeLoop]
    by_cases hacc : acc < qty
    · rw [if_pos hacc]
      cases hmk : markConsumed now all e.reservationId with
      | none => exact ih all acc hf (fun x hx => hes x (by simp [hx]))
      | some p =>
        refine ih p.1 (acc + p.2) ?_ (fun x hx => hes x (by simp [hx]))
        exact markConsumed_forall2 now rs hnodup all hf e (hes e (by simp)).1
          (hes e (by simp)).2 p.1 p.2 (by rw [hmk])
    · rw [if_neg hacc]
      exact hf

theorem transition_twice_invalid (rs : List Reservation) :
    ∀ (rid : String) (s : ResStatus) (t : Int) (out : List Reservation),
      s ≠ ResStatus.active → transition rs rid s t = Except.ok out →
      ∀ (s2 : ResStatus) (t2 : Int),
        transition out rid s2 t2 = Except.error LedgerError.invalidTransition := by
  induction rs with
  | nil =>
    intro rid s t out _ h
    simp [transition] at h
  | cons r rest ih =>
    intro rid s t out hs h s2 t2
    by_cases hr : r.reservationId = rid
    · rw [transition, if_pos hr] at h
      by_cases hact : r.status = ResStatus.active
      · rw [if_pos hact] at h
        cases h
        rw [transition, if_pos hr, if_neg hs]
      · rw [if_neg hact] at h
        cases h
    · rw [transition, if_neg hr] at h
      cases hrec : transition rest rid s t with
      | error err =>
        rw [hrec] at h
        cases h
      | ok rest2 =>
        rw [hrec] at h
        cases h
        rw [transition, if_neg hr, ih rid s t rest2 hs hrec s2 t2]

theorem setAllVariantsInventory_abort (env : String → WriteOutcome)
    (pre : List String) (j : String) (post : List String) (level : Int)
    (hpre : ∀ i ∈ pre, env i = WriteOutcome.ok)
    (hj : env j = WriteOutcome.failed) :
    setAllVariantsInventory env (pre ++ j :: post) level
      = (pre.map (fun i => (i, level)), false) := by
  induction pre with
  | nil => rw [List.nil_append, setAllVariantsInventory, hj]; rfl
  | cons a t ih =>
    rw [List.cons_append, setAllVariantsInventory, hpre a (by simp)]
    simp [ih (fun i hi => hpre i (by simp [hi]))]

theorem syncInventoryForItem_some (env : String → WriteOutcome)
    (groups : List Group) (inventoryItemId : String) (n : Int) (g : Group)
    (hfind : findProductGroupByInventoryItemId groups inventoryItemId = some g) :
    syncInventoryForItem env groups inventoryItemId n =
      ((updateProductGroupInventory groups g.id n).getD groups,
       setAllVariantsInventory env g.inventoryItemIds (if n ≤ 0 then 0 else n)) := by
  unfold syncInventoryForItem
  rw [hfind]

theorem handleOrderLineItem_some (env : String → WriteOutcome)
    (groups : List Group) (variantId : String) (g : Group)
    (hfind : findProductGroupByVariantId groups variantId = some g) :
    handleOrderLineItem env groups variantId =
      syncInventoryForItem env groups (g.inventoryItemIds.headD "undefined")
        (max 0 (g.sharedInventoryCount - 1)) := by
  unfold handleOrderLineItem
  rw [hfind]

theorem handleCartAddition_some (env : String → WriteOutcome)
    (catalog : String → Int) (st : AppState) (variantId : String) (g : Group)
    (inventoryItemId : String)
    (hfind : findProductGroupByVariantId st.groups variantId = some g)
    (hhead : g.inventoryItemIds.head? = some inventoryItemId)
    (hne : inventoryItemId ≠ "") :
    handleCartAddition env catalog st variantId =
      (if catalog inventoryItemId ≤ 0 then (st, CartResult.outOfStock, [])
       else
         (({ st with
              groups := (syncInventoryForItem env st.groups inventoryItemId
                (catalog inventoryItemId - 1)).1 },
           (if (syncInventoryForItem env st.groups inventoryItemId
                (catalog inventoryItemId - 1)).2.2
            then CartResult.success else CartResult.processingError),
           (syncInventoryForItem env st.groups inventoryItemId
             (catalog inventoryItemId - 1)).2.1))) := by
  unfold handleCartAddition
  rw [hfind]
  dsimp only
  rw [hhead]
  dsimp only
  rw [if_neg hne]

/-! ### Claim theorems -/

/-- C6: `setSharedCount` (db.js `updateProductGroupInventory`) fails — the
source signals the failure by returning null and writing nothing, modelled
as `none` — exactly when no group with the given id exists, leaving the
registry unchanged; otherwise it replaces exactly the (first) matching
group's `sharedInventoryCount` with the given value and leaves every other
group untouched. -/
theorem claim6_setSharedCount_spec (groups : List Group)
    (productGroupId : String) (n : Int) :
    (updateProductGroupInventory groups productGroupId n = none ↔
      ∀ g ∈ groups, g.id ≠ productGroupId) ∧
    ∀ groups2, updateProductGroupInventory groups productGroupId n = some groups2 →
      ∃ pre g post, groups = pre ++ g :: post ∧
        (∀ x ∈ pre, x.id ≠ productGroupId) ∧ g.id = productGroupId ∧
        groups2 = pre ++ { g with sharedInventoryCount := n } :: post :=
  ⟨updateProductGroupInventory_eq_none_iff groups productGroupId n,
   fun groups2 h =>
     updateProductGroupInventory_some_split groups productGroupId n groups2 h⟩

/-- C6 witness: the not-found case fails on a concrete registry, and the
found case replaces exactly the matching group's count. -/
theorem claim6_witness :
    updateProductGroupInventory [gA] "zzz" 5 = none ∧
    ∃ pre g post, ([gA, gB] : List Group) = pre ++ g :: post ∧
      (∀ x ∈ pre, x.id ≠ "b") ∧ g.id = "b" ∧
      [gA, { gB with sharedInventoryCount := 7 }]
        = pre ++ { g with sharedInventoryCount := 7 } :: post := by
  constructor
  · exact (claim6_setSharedCount_spec [gA] "zzz" 5).1.mpr (by decide)
  · exact (claim6_setSharedCount_spec [gA, gB] "b" 7).2
      [gA, { gB with sharedInventoryCount := 7 }] (by decide)

/-- C2 counterexample: the claim says `syncGroupInventory` clamps a negative
incoming level to 0 before storing it and that `sharedCount` is always
nonnegative; but `syncInventoryForItem` with level -3 on a registered group
stores -3 as the group's shared count. -/
theorem claim2_counterexample :
    (syncInventoryForItem envAllOk [gA] "ia1" (-3)).1
      = [{ gA with sharedInventoryCount := -3 }] ∧
    ({ gA with sharedInventoryCount := -3 } : Group).sharedInventoryCount < 0 := by
  exact ⟨rfl, by decide⟩

/-- C2 (amended): `syncGroupInventory` stores the incoming `newLevel` in the
group unclamped — so a negative level drives the stored `sharedCount`
negative — and the clamp to ≥ 0 applies only to the level fanned out to the
member inventory items. -/
theorem claim2_sync_stores_unclamped (env : String → WriteOutcome)
    (groups : List Group) (inventoryItemId : String) (n : Int) (g : Group)
    (hfind : findProductGroupByInventoryItemId groups inventoryItemId = some g)
    (hnodup : (groups.map Group.id).Nodup) :
    ∃ pre post, groups = pre ++ g :: post ∧
      (syncInventoryForItem env groups inventoryItemId n).1
        = pre ++ { g with sharedInventoryCount := n } :: post ∧
      (syncInventoryForItem env groups inventoryItemId n).2.1
        = (setAllVariantsInventory env g.inventoryItemIds (max 0 n)).1 := by
  obtain ⟨hpg, pre, post, hsplit, hprev⟩ := find?_some_split hfind
  have hpre : ∀ x ∈ pre, x.id ≠ g.id := by
    rw [hsplit] at hnodup
    exact nodup_no_earlier_id hnodup
  have hupd := updateProductGroupInventory_first pre g post g.id n hpre rfl
  rw [syncInventoryForItem_some env groups inventoryItemId n g hfind]
  refine ⟨pre, post, hsplit, ?_, ?_⟩
  · simp only [hsplit, hupd, Option.getD_some]
  · simp only [ite_nonpos_eq_max]

/-- C2 witness: instantiated at a concrete one-group registry and level
-7. -/
theorem claim2_witness :
    ∃ pre post, ([gB] : List Group) = pre ++ gB :: post ∧
      (syncInventoryForItem envAllOk [gB] "ib1" (-7)).1
        = pre ++ { gB with sharedInventoryCount := -7 } :: post ∧
      (syncInventoryForItem envAllOk [gB] "ib1" (-7)).2.1
        = (setAllVariantsInventory envAllOk gB.inventoryItemIds (max 0 (-7))).1 :=
  claim2_sync_stores_unclamped envAllOk [gB] "ib1" (-7) gB (by decide) (by decide)

/-- C8 counterexample: the claim says a failed external write for one member
does not prevent the writes for the remaining members; but with the write
for i1 throwing and the writes for i2 and i3 able to succeed, the fan-out
performs no successful write at all — the remaining members are never
attempted. -/
theorem claim8_counterexample :
    envFail1 "i2" = WriteOutcome.ok ∧ envFail1 "i3" = WriteOutcome.ok ∧
    setAllVariantsInventory envFail1 ["i1", "i2", "i3"] 5 = ([], false) := by
  exact ⟨rfl, rfl, rfl⟩

/-- C8 (amended): the fan-out is sequential; when every member write
succeeds, a set-inventory call with the new level is made for every member
(in particular, on a 3-member group an inventory change to 5 sets all three
member items to 5); but a thrown write aborts the loop, so the members after
the first failure are not attempted — partial success is limited to the
members before the failure. -/
theorem claim8_fanout_sequential_abort :
    (∀ (env : String → WriteOutcome) (items : List String) (level : Int),
       (∀ i ∈ items, env i = WriteOutcome.ok) →
       setAllVariantsInventory env items level
         = (items.map (fun i => (i, level)), true)) ∧
    (∀ (env : String → WriteOutcome) (pre : List String) (j : String)
       (post : List String) (level : Int),
       (∀ i ∈ pre, env i = WriteOutcome.ok) → env j = WriteOutcome.failed →
       setAllVariantsInventory env (pre ++ j :: post) level
         = (pre.map (fun i => (i, level)), false)) ∧
    syncInventoryForItem envAllOk [g3] "i1" 5
      = ([{ g3 with sharedInventoryCount := 5 }],
         [("i1", 5), ("i2", 5), ("i3", 5)], true) := by
  exact ⟨setAllVariantsInventory_all_ok, setAllVariantsInventory_abort, rfl⟩

/-- C8 witness: the all-success case writes every member, and a failure on
the second member stops after the first. -/
theorem claim8_witness :
    setAllVariantsInventory envAllOk ["a", "b"] 4 = ([("a", 4), ("b", 4)], true) ∧
    setAllVariantsInventory envFail1 ["i2", "i1", "i3"] 9 = ([("i2", 9)], false) := by
  constructor
  · exact claim8_fanout_sequential_abort.1 envAllOk ["a", "b"] 4 (by decide)
  · exact claim8_fanout_sequential_abort.2.1 envFail1 ["i2"] "i1" ["i3"] 9
      (by decide) (by decide)

/-- C10: confirming an order line item for a variant of a registered group
sets the group's `sharedCount` to `max 0 (sharedCount - 1)` — a decrease by
exactly 1 when positive, and 0 stays 0 without raising an error (when the
external member writes succeed the call completes normally). -/
theorem claim10_order_decrement_clamped (env : String → WriteOutcome)
    (groups : List Group) (variantId : String) (g : Group)
    (hfind : findProductGroupByVariantId groups variantId = some g)
    (hitem : findProductGroupByInventoryItemId groups
      (g.inventoryItemIds.headD "undefined") = some g)
    (hnodup : (groups.map Group.id).Nodup)
    (henv : ∀ i ∈ g.inventoryItemIds, env i = WriteOutcome.ok) :
    ∃ pre post, groups = pre ++ g :: post ∧
      (handleOrderLineItem env groups variantId).1
        = pre ++ { g with
            sharedInventoryCount := max 0 (g.sharedInventoryCount - 1) } :: post ∧
      (handleOrderLineItem env groups variantId).2.2 = true := by
  obtain ⟨hpg, pre, post, hsplit, hprev⟩ := find?_some_split hitem
  have hpre : ∀ x ∈ pre, x.id ≠ g.id := by
    rw [hsplit] at hnodup
    exact nodup_no_earlier_id hnodup
  have hupd := updateProductGroupInventory_first pre g post g.id
    (max 0 (g.sharedInventoryCount - 1)) hpre rfl
  have hset := setAllVariantsInventory_all_ok env g.inventoryItemIds
    (if max 0 (g.sharedInventoryCount - 1) ≤ 0 then 0
     else max 0 (g.sharedInventoryCount - 1)) henv
  rw [handleOrderLineItem_some env groups variantId g hfind,
    syncInventoryForItem_some env groups (g.inventoryItemIds.headD "undefined")
      (max 0 (g.sharedInventoryCount - 1)) g hitem]
  refine ⟨pre, post, hsplit, ?_, ?_⟩
  · simp only [hsplit, hupd, Option.getD_some]
  · simp only [hset]

/-- C10 witness: on a group whose shared count is already 0, the order
confirmation leaves the count at `max 0 (0 - 1) = 0` and completes without
error. -/
theorem claim10_witness :
    ∃ pre post, ([gZ] : List Group) = pre ++ gZ :: post ∧
      (handleOrderLineItem envAllOk [gZ] "vz1").1
        = pre ++ { gZ with
            sharedInventoryCount := max 0 (gZ.sharedInventoryCount - 1) } :: post ∧
      (handleOrderLineItem envAllOk [gZ] "vz1").2.2 = true :=
  claim10_order_decrement_clamped envAllOk [gZ] "vz1" gZ (by decide) (by decide)
    (by decide) (by decide)

/-- C1: the claim (and the repository's own design document and final
report) say a successful cart-add appends a quantity-1, 30-minute-TTL
reservation to the ledger together with the count decrement, as one atomic
unit.  The code never writes the ledger: at a concrete state with an empty
ledger, the cart-add succeeds and decrements the stored count, yet the
reservation ledger is still empty — a decremented count with no
corresponding reservation (`createReservation` has no caller in src). -/
theorem claim1_cart_add_creates_no_reservation :
    (handleCartAddition envAllOk catC1 stC1 "v1").2.1 = CartResult.success ∧
    (handleCartAddition envAllOk catC1 stC1 "v1").1.groups
      = [{ gC1 with sharedInventoryCount := 4 }] ∧
    (handleCartAddition envAllOk catC1 stC1 "v1").1.reservations = [] ∧
    stC1.reservations = [] := by
  exact ⟨rfl, rfl, rfl, rfl⟩

/-- C3 counterexample: the claim says a cart-add is rejected with
out-of-stock if and only if the group's stored `sharedCount` is ≤ 0; but
with a stored count of 0 and an external catalog reporting 2 available for
the group's first item, the cart-add succeeds. -/
theorem claim3_counterexample :
    g0.sharedInventoryCount ≤ 0 ∧
    (handleCartAddition envAllOk cat2 st0 "v1").2.1 = CartResult.success := by
  exact ⟨by decide, rfl⟩

/-- C3 (amended): the cart-add rejects with out-of-stock exactly when the
externally fetched available quantity of the group's first inventory item is
≤ 0 — the stored `sharedCount` is not consulted — and a rejection leaves the
state unchanged.  When the catalog agrees with `sharedCount = 1`, one
cart-add succeeds and brings the stored count to 0 while fanning 0 out to
every member item, and a second cart-add on a sibling variant, reading the
catalog produced by those writes, is rejected. -/
theorem claim3_reject_iff_fetched_nonpositive (env : String → WriteOutcome)
    (catalog : String → Int) (st : AppState) (variantId : String) (g : Group)
    (inventoryItemId : String)
    (hfind : findProductGroupByVariantId st.groups variantId = some g)
    (hhead : g.inventoryItemIds.head? = some inventoryItemId)
    (hne : inventoryItemId ≠ "") :
    ((handleCartAddition env catalog st variantId).2.1 = CartResult.outOfStock ↔
      catalog inventoryItemId ≤ 0) ∧
    (catalog inventoryItemId ≤ 0 →
      handleCartAddition env catalog st variantId
        = (st, CartResult.outOfStock, [])) ∧
    ((handleCartAddition envAllOk catOne stOne "v1").2.1 = CartResult.success ∧
     (handleCartAddition envAllOk catOne stOne "v1").1.groups
       = [{ gOne with sharedInventoryCount := 0 }] ∧
     (handleCartAddition envAllOk
        (applyCalls catOne (handleCartAddition envAllOk catOne stOne "v1").2.2)
        (handleCartAddition envAllOk catOne stOne "v1").1 "v2").2.1
       = CartResult.outOfStock) := by
  rw [handleCartAddition_some env catalog st variantId g inventoryItemId hfind hhead hne]
  by_cases hc : catalog inventoryItemId ≤ 0
  · rw [if_pos hc]
    exact ⟨by simp [hc], fun _ => rfl, rfl, rfl, rfl⟩
  · rw [if_neg hc]
    refine ⟨?_, fun h => absurd h hc, rfl, rfl, rfl⟩
    cases hok : (syncInventoryForItem env st.groups inventoryItemId
        (catalog inventoryItemId - 1)).2.2 <;>
      simp [hok, hc]

/-- C3 witness: instantiated at a catalog reporting 0 for every item — the
cart-add on a registered variant is rejected and the state is unchanged. -/
theorem claim3_witness :
    (handleCartAddition envAllOk catZeroW stOne "v1").2.1 = CartResult.outOfStock ∧
    handleCartAddition envAllOk catZeroW stOne "v1"
      = (stOne, CartResult.outOfStock, []) := by
  have h := claim3_reject_iff_fetched_nonpositive envAllOk catZeroW stOne "v1"
    gOne "i1" (by decide) (by decide) (by decide)
  exact ⟨h.1.mpr (by decide), h.2.1 (by decide)⟩

/-- C4: `consume` returns the actual total consumed, which is 0 or exceeds
no reasonable bound — precisely, any nonzero return is strictly below the
requested quantity plus the `reservedQuantity` of some ledger reservation
(a reservation larger than the remaining need is consumed in full, never
split, so the overshoot is bounded by one reservation's quantity); and in
the two-reservation scenario — R1 older than R2, ledger stored in the
opposite order — consuming 1 unit consumes exactly R1 (oldest first) and
leaves R2 active. -/
theorem claim4_consume_oldest_first_overconsume_bound :
    (∀ (reservations : List Reservation) (productGroupId : String)
       (qty now : Int),
       (consumeReservationsForGroup reservations productGroupId qty now).2 = 0 ∨
       ∃ r ∈ reservations,
         (consumeReservationsForGroup reservations productGroupId qty now).2
           < qty + r.reservedQuantity) ∧
    consumeReservationsForGroup [r2ex, r1ex] "G" 1 10
      = ([r2ex, markRes 10 r1ex], 1) := by
  constructor
  · intro reservations productGroupId qty now
    rcases consumeLoop_bound now qty
        ((reservations.filter (eligiblePred productGroupId now)).insertionSort
          (fun a b => a.reservedAt ≤ b.reservedAt)) reservations 0 with h | ⟨q, hqmem, hlt⟩
    · left
      exact h
    · right
      obtain ⟨r, hr, hrq⟩ := List.mem_map.mp hqmem
      exact ⟨r, hr, by rw [hrq]; exact hlt⟩
  · decide

/-- C5 counterexample: the claim says `listActiveEligible` returns the
matching reservations ordered ascending by `reservedAt`; but with the newer
reservation stored first, the returned list is in ledger order and not
sorted. -/
theorem claim5_counterexample :
    getActiveReservationsForGroup [r2ex, r1ex] "G" 10 = [r2ex, r1ex] ∧
    r1ex.reservedAt < r2ex.reservedAt ∧
    ¬ List.Sorted (fun a b => a.reservedAt ≤ b.reservedAt)
        (getActiveReservationsForGroup [r2ex, r1ex] "G" 10) := by
  exact ⟨rfl, by decide, by decide⟩

/-- C5 (amended): `listActiveEligible` returns exactly the reservations of
the group with status `active` and `expiresAt` strictly after the query
time, in ledger order (a sublist of the ledger) — it does not sort; the
oldest-first ordering is applied separately inside `consume`. -/
theorem claim5_filter_exact_ledger_order (reservations : List Reservation)
    (productGroupId : String) (now : Int) :
    (getActiveReservationsForGroup reservations productGroupId now).Sublist
      reservations ∧
    ∀ r, r ∈ getActiveReservationsForGroup reservations productGroupId now ↔
      r ∈ reservations ∧ r.productGroupId = productGroupId ∧
      r.status = ResStatus.active ∧ now < r.expiresAt := by
  constructor
  · exact List.filter_sublist reservations
  · intro r
    simp [getActiveReservationsForGroup, List.mem_filter, eligiblePred, and_assoc]

/-- C7: upserting with fewer than 2 members removes the group (idempotently
a no-op when the group is absent), after which `findByVariant` returns
not-found for any variant no other group holds; with at least 2 members and
an existing group, the upsert replaces membership and title but preserves
the existing `sharedInventoryCount`. -/
theorem claim7_upsertGroup_spec (groups : List Group) (productId : String)
    (title : String) (variants : List VariantInfo) (fetchedLevel : Int) :
    (variants.length ≤ 1 →
      updateProductGroup groups productId title variants fetchedLevel
        = groups.filter (fun g => g.id != productId) ∧
      ((∀ g ∈ groups, g.id ≠ productId) →
        updateProductGroup groups productId title variants fetchedLevel
          = groups) ∧
      (∀ v, (∀ g ∈ groups, g.id = productId ∨ v ∉ g.variantIds) →
        findProductGroupByVariantId
          (updateProductGroup groups productId title variants fetchedLevel) v
          = none)) ∧
    (2 ≤ variants.length →
      ∀ pre gOld post, groups = pre ++ gOld :: post →
        (∀ x ∈ pre, x.id ≠ productId) → gOld.id = productId →
        updateProductGroup groups productId title variants fetchedLevel
          = pre ++
              { id := productId, title := title,
                variantIds := variants.map VariantInfo.id,
                inventoryItemIds := variants.map VariantInfo.inventory_item_id,
                sharedInventoryCount := gOld.sharedInventoryCount } :: post) := by
  constructor
  · intro hlen
    have hre : updateProductGroup groups productId title variants fetchedLevel
        = groups.filter (fun g => g.id != productId) := by
      unfold updateProductGroup
      rw [if_pos hlen]
      exact removeProductGroup_fst groups productId
    refine ⟨hre, ?_, ?_⟩
    · intro hall
      rw [hre]
      exact List.filter_eq_self.mpr (fun g hg => by simp [hall g hg])
    · intro v hv
      rw [hre]
      unfold findProductGroupByVariantId
      rw [List.find?_eq_none]
      intro g hg
      obtain ⟨hgmem, hgid⟩ := List.mem_filter.mp hg
      rcases hv g hgmem with heq | hnot
      · exact absurd heq (by simpa using hgid)
      · simpa using hnot
  · intro hlen pre gOld post hsplit hpre hgid
    unfold updateProductGroup
    rw [if_neg (by omega)]
    have hget : getProductGroup groups productId = some gOld := by
      rw [hsplit]
      exact find?_first pre gOld post (fun x hx => by simp [hpre x hx])
        (by simp [hgid])
    rw [hget, hsplit]
    exact saveProductGroup_first pre gOld post _ (fun x hx => hpre x hx) hgid

/-- C7 witness: a concrete group shrunk to one member is removed, its former
variant is no longer found, and a two-member upsert of the same group keeps
its shared count. -/
theorem claim7_witness :
    updateProductGroup [gW] "p" "T2" [w1] 9 = [] ∧
    findProductGroupByVariantId (updateProductGroup [gW] "p" "T2" [w1] 9) "v1"
      = none ∧
    updateProductGroup [gW] "p" "T2" [w1, w2] 9
      = [{ id := "p", title := "T2", variantIds := ["x1", "x2"],
           inventoryItemIds := ["y1", "y2"],
           sharedInventoryCount := gW.sharedInventoryCount }] := by
  have h1 := claim7_upsertGroup_spec [gW] "p" "T2" [w1] 9
  have h2 := claim7_upsertGroup_spec [gW] "p" "T2" [w1, w2] 9
  refine ⟨?_, ?_, ?_⟩
  · rw [(h1.1 (by decide)).1]
    decide
  · exact (h1.1 (by decide)).2.2 "v1" (by decide)
  · have := h2.2 (by decide) [] gW [] rfl (by simp) (by decide)
    simpa using this

/-- C9: a reservation's status changes at most once.  First, over the real
code: a consume sweep relates the ledger before and after pointwise — every
record keeps its id and is either untouched or was `active` and is now
`consumed`; records already in a terminal state are never changed.  Second,
over the spec-modelled ledger `transition`: once a reservation has been
transitioned out of `active` into a terminal status, any further transition
attempt on it fails with `InvalidTransitionError`. -/
theorem claim9_single_transition (reservations : List Reservation)
    (productGroupId : String) (qty now : Int)
    (hnodup : (reservations.map Reservation.reservationId).Nodup) :
    List.Forall₂ (statusPreservedOrConsumed now) reservations
      (consumeReservationsForGroup reservations productGroupId qty now).1 ∧
    ∀ (rs : List Reservation) (rid : String) (s : ResStatus) (t : Int)
      (out : List Reservation),
      s ≠ ResStatus.active → transition rs rid s t = Except.ok out →
      ∀ (s2 : ResStatus) (t2 : Int),
        transition out rid s2 t2 = Except.error LedgerError.invalidTransition := by
  constructor
  · unfold consumeReservationsForGroup
    refine consumeLoop_forall2 now qty reservations hnodup _ reservations 0
      (List.forall₂_same.mpr (fun x _ => ⟨rfl, Or.inl rfl⟩)) ?_
    intro e he
    have hmem : e ∈ reservations.filter (eligiblePred productGroupId now) :=
      (List.perm_insertionSort _ _).mem_iff.mp he
    obtain ⟨hrs, hp⟩ := List.mem_filter.mp hmem
    refine ⟨hrs, ?_⟩
    simp only [eligiblePred, Bool.and_eq_true, beq_iff_eq,
      decide_eq_true_eq] at hp
    exact hp.1.2
  · exact fun rs rid s t out hs h s2 t2 =>
      transition_twice_invalid rs rid s t out hs h s2 t2

/-- C9 witness: the pointwise invariant at a concrete two-entry ledger, and
a concrete released reservation rejecting a second transition. -/
theorem claim9_witness :
    List.Forall₂ (statusPreservedOrConsumed 10) [r2ex, r1ex]
      (consumeReservationsForGroup [r2ex, r1ex] "G" 1 10).1 ∧
    transition [r1rel] "r1" ResStatus.consumed 7
      = Except.error LedgerError.invalidTransition := by
  have h := claim9_single_transition [r2ex, r1ex] "G" 1 10 (by decide)
  refine ⟨h.1, ?_⟩
  exact h.2 [r1ex] "r1" ResStatus.released 5 [r1rel]
    (by decide) rfl ResStatus.consumed 7

end ShopifySync
